import Mathlib

/-!
# Verification of the distributed-systems-showcase betting core

A shallow embedding, in Lean 4, of the core of the showcase:

* the transactional ledger (`BetService.processBet` in `services/bet.ts`):
  row-locked balance read, optimistic-locking compare-and-swap update,
  wager and wallet-transaction inserts in one atomic unit;
* the Kafka event batcher (`services/kafka.ts`): publish with size guards,
  queue, batch flush (`processBatch`), linger timer (`scheduleBatch`),
  shutdown drain (`disconnectProducer`);
* the wire encoding/decoding of `BetEventMessage`
  (`publishBetEvent` / `subscribeToBetEvents`);
* the ClickHouse analytics aggregation (`getBetAnalytics` in
  `services/clickhouse.ts`);
* the bet-history pagination (`BetService.getBetHistory`).

Monetary amounts (PostgreSQL `DECIMAL(10,2)`, JS numbers) are modelled as
rationals; identifiers are strings; timestamps are naturals (minutes).
The database is modelled as explicit state passed through each operation;
the per-account row lock of the `SELECT ... FOR UPDATE` serializes the
transaction body, so a sequence of `processBet` calls is a fold over the
state.  UUID/transaction-id generation and wall-clock readings are
nondeterministic inputs and appear as explicit arguments.
-/

namespace Showcase

/-- A row of the `users` table: id, `balance DECIMAL(10,2)`, and the
`version` column used for optimistic locking. -/
structure UserRow where
  id : String
  balance : ℚ
  version : ℕ
  deriving DecidableEq, Repr

/-- A validated `BetRequest` as delivered by the (out-of-scope) HTTP layer. -/
structure BetRequest where
  userId : String
  gameId : String
  amount : ℚ
  betType : String
  betValue : Option String
  odds : ℚ
  deriving DecidableEq, Repr

/-- A row of the `bets` table, as inserted by `processBet`. -/
structure BetRow where
  id : String
  user_id : String
  game_id : String
  amount : ℚ
  bet_type : String
  bet_value : Option String
  odds : ℚ
  potential_win : ℚ
  status : String
  deriving DecidableEq, Repr

/-- A row of the `wallet_transactions` audit table, as inserted by
`processBet`. -/
structure TxnRow where
  user_id : String
  transaction_id : String
  transaction_type : String
  amount : ℚ
  balance_before : ℚ
  balance_after : ℚ
  bet_id : Option String
  deriving DecidableEq, Repr

/-- The relational state touched by the transactional ledger. -/
structure LedgerState where
  users : List UserRow
  bets : List BetRow
  txns : List TxnRow
  deriving DecidableEq, Repr

/-- Status field of a `BetResponse`. -/
inductive BetStatus
  | accepted
  | rejected
  deriving DecidableEq, Repr

/-- The `BetResponse` returned by `processBet` (the `processingTime`
wall-clock fields are timing metadata and are not modelled). -/
structure BetResponse where
  betId : String
  status : BetStatus
  transactionId : Option String := none
  newBalance : Option ℚ := none
  potentialWin : Option ℚ := none
  error : Option String := none
  currentBalance : Option ℚ := none
  deriving DecidableEq, Repr

/-- `SELECT balance, version FROM users WHERE id = $1 FOR UPDATE`:
the first (unique, by primary key) row with the given id. -/
def selectUserForUpdate (users : List UserRow) (userId : String) : Option UserRow :=
  users.find? (fun u => u.id = userId)

/-- Effect of `UPDATE users SET balance = $1, version = version + 1
WHERE id = $2 AND version = $3` on the table. -/
def casUpdate (users : List UserRow) (userId : String) (newBalance : ℚ)
    (version : ℕ) : List UserRow :=
  users.map (fun u =>
    if u.id = userId ∧ u.version = version then
      { u with balance := newBalance, version := u.version + 1 }
    else u)

/-- `rowCount` reported by that same `UPDATE`. -/
def casRowCount (users : List UserRow) (userId : String) (version : ℕ) : ℕ :=
  users.countP (fun u => decide (u.id = userId ∧ u.version = version))

/-- `BetService.processBet` (services/bet.ts): the body of the ledger
transaction, with the freshly generated `betId` and `transactionId`
passed as explicit inputs.  Rollback paths return the input state
unchanged; the commit path installs the updated `users` table and the
two inserted rows. -/
def processBet (req : BetRequest) (betId transactionId : String)
    (s : LedgerState) : BetResponse × LedgerState :=
  match selectUserForUpdate s.users req.userId with
  | none =>
      ({ betId := betId, status := .rejected, error := some "User not found" }, s)
  | some u =>
      if u.balance < req.amount then
        ({ betId := betId, status := .rejected,
           error := some "Insufficient balance",
           currentBalance := some u.balance }, s)
      else
        let newBalance := u.balance - req.amount
        let users2 := casUpdate s.users req.userId newBalance u.version
        let rowCount := casRowCount s.users req.userId u.version
        if rowCount = 0 then
          ({ betId := betId, status := .rejected,
             error := some "Concurrent modification detected. Please retry." }, s)
        else
          let potentialWin := req.amount * req.odds
          let betRow : BetRow :=
            { id := betId, user_id := req.userId, game_id := req.gameId,
              amount := req.amount, bet_type := req.betType,
              bet_value := req.betValue, odds := req.odds,
              potential_win := potentialWin, status := "pending" }
          let txnRow : TxnRow :=
            { user_id := req.userId, transaction_id := transactionId,
              transaction_type := "bet", amount := req.amount,
              balance_before := u.balance, balance_after := newBalance,
              bet_id := some betId }
          ({ betId := betId, status := .accepted,
             transactionId := some transactionId,
             newBalance := some newBalance,
             potentialWin := some potentialWin },
           { users := users2, bets := s.bets ++ [betRow],
             txns := s.txns ++ [txnRow] })

/-- Balance of an account as an observer would read it back. -/
def getBalance (s : LedgerState) (userId : String) : Option ℚ :=
  (selectUserForUpdate s.users userId).map (fun u => u.balance)

/-- Which database statement of the transaction an injected
infrastructure fault hits (`noFault` = the happy path). -/
inductive DbFault
  | noFault
  | atUpdate
  | atInsertBet
  | atInsertTxn
  | atCommit
  deriving DecidableEq, Repr

/-- `processBet` with an injected infrastructure fault: any throwing
statement lands in the `catch (dbError)` handler, which issues
`ROLLBACK` and rethrows, so the caller sees an exception and the state
is the input state.  Business rejections stay ordinary return values. -/
def processBetWithFault (req : BetRequest) (betId transactionId : String)
    (fault : DbFault) (s : LedgerState) :
    Except String BetResponse × LedgerState :=
  match selectUserForUpdate s.users req.userId with
  | none =>
      (Except.ok { betId := betId, status := .rejected,
                   error := some "User not found" }, s)
  | some u =>
      if u.balance < req.amount then
        (Except.ok { betId := betId, status := .rejected,
                     error := some "Insufficient balance",
                     currentBalance := some u.balance }, s)
      else if fault = DbFault.atUpdate then
        (Except.error "db error", s)
      else
        let newBalance := u.balance - req.amount
        let users2 := casUpdate s.users req.userId newBalance u.version
        let rowCount := casRowCount s.users req.userId u.version
        if rowCount = 0 then
          (Except.ok { betId := betId, status := .rejected,
                       error := some "Concurrent modification detected. Please retry." }, s)
        else if fault = DbFault.atInsertBet then
          (Except.error "db error", s)
        else if fault = DbFault.atInsertTxn then
          (Except.error "db error", s)
        else if fault = DbFault.atCommit then
          (Except.error "db error", s)
        else
          let potentialWin := req.amount * req.odds
          let betRow : BetRow :=
            { id := betId, user_id := req.userId, game_id := req.gameId,
              amount := req.amount, bet_type := req.betType,
              bet_value := req.betValue, odds := req.odds,
              potential_win := potentialWin, status := "pending" }
          let txnRow : TxnRow :=
            { user_id := req.userId, transaction_id := transactionId,
              transaction_type := "bet", amount := req.amount,
              balance_before := u.balance, balance_after := newBalance,
              bet_id := some betId }
          (Except.ok { betId := betId, status := .accepted,
                       transactionId := some transactionId,
                       newBalance := some newBalance,
                       potentialWin := some potentialWin },
           { users := users2, bets := s.bets ++ [betRow],
             txns := s.txns ++ [txnRow] })

/-- Running a sequence of `processBet` calls (each with its generated
ids), collecting the responses; the row lock serializes them. -/
def runBets : List (BetRequest × String × String) → LedgerState →
    List BetResponse × LedgerState
  | [], s => ([], s)
  | c :: rest, s =>
      let p := processBet c.1 c.2.1 c.2.2 s
      let q := runBets rest p.2
      (p.1 :: q.1, q.2)

/-- The sum of the stakes of exactly those calls of the sequence that
return an accepted result. -/
def acceptedStakeSum : List (BetRequest × String × String) → LedgerState → ℚ
  | [], _ => 0
  | c :: rest, s =>
      let p := processBet c.1 c.2.1 c.2.2 s
      (if p.1.status = BetStatus.accepted then c.1.amount else 0) +
        acceptedStakeSum rest p.2

/-- The `BetEventMessage` wire type (types/index.ts): the object built
by `publishBetEvent` and the shape the consumer casts the parsed JSON
back to.  `betType` string literals are modelled as strings. -/
structure BetEventMessage where
  betId : String
  userId : String
  amount : ℚ
  gameId : String
  betType : String
  betValue : Option String
  odds : ℚ
  potentialWin : ℚ
  transactionId : String
  newBalance : ℚ
  timestamp : String
  deriving DecidableEq, Repr

/-- A JSON value as it appears in the flat `BetEventMessage` object:
every field is a string or a number. -/
inductive Jval
  | str (s : String)
  | num (q : ℚ)
  deriving DecidableEq, Repr

/-- The JSON object `publishBetEvent` builds (`kafkaMessage`), in
insertion order, with the `undefined`-valued `betValue` key removed
(the `Object.keys(...).forEach(... delete ...)` step). -/
def encodeBetEvent (m : BetEventMessage) : List (String × Jval) :=
  [("betId", Jval.str m.betId), ("userId", Jval.str m.userId),
   ("amount", Jval.num m.amount), ("gameId", Jval.str m.gameId),
   ("betType", Jval.str m.betType)]
  ++ (match m.betValue with
      | some v => [("betValue", Jval.str v)]
      | none => [])
  ++ [("odds", Jval.num m.odds), ("potentialWin", Jval.num m.potentialWin),
      ("transactionId", Jval.str m.transactionId),
      ("newBalance", Jval.num m.newBalance),
      ("timestamp", Jval.str m.timestamp)]

/-- Field access on a parsed JSON object. -/
def jlookup (obj : List (String × Jval)) (k : String) : Option Jval :=
  (obj.find? (fun p => p.1 = k)).map (fun p => p.2)

/-- Reading a field expected to hold a string. -/
def asStr : Option Jval → Option String
  | some (Jval.str s) => some s
  | _ => none

/-- Reading a field expected to hold a number. -/
def asNum : Option Jval → Option ℚ
  | some (Jval.num q) => some q
  | _ => none

/-- The consumer side (`subscribeToBetEvents`): `JSON.parse` of the
message body, used as a `BetEventMessage` field by field. -/
def decodeBetEvent (obj : List (String × Jval)) : Option BetEventMessage :=
  match asStr (jlookup obj "betId"), asStr (jlookup obj "userId"),
        asNum (jlookup obj "amount"), asStr (jlookup obj "gameId"),
        asStr (jlookup obj "betType"), asNum (jlookup obj "odds"),
        asNum (jlookup obj "potentialWin"),
        asStr (jlookup obj "transactionId"),
        asNum (jlookup obj "newBalance"), asStr (jlookup obj "timestamp") with
  | some bid, some uid, some amt, some gid, some bt, some od, some pw,
    some tx, some nb, some ts =>
      some { betId := bid, userId := uid, amount := amt, gameId := gid,
             betType := bt, betValue := asStr (jlookup obj "betValue"),
             odds := od, potentialWin := pw, transactionId := tx,
             newBalance := nb, timestamp := ts }
  | _, _, _, _, _, _, _, _, _, _ => none

/-- Rendering of a JS number in `JSON.stringify`, modelled by the
rational's canonical string. -/
def jnumToString (q : ℚ) : String := toString q

/-- `JSON.stringify(kafkaMessage)`: the wire string whose length is the
`messageSize` the size guards inspect.  Key order is insertion order;
an absent `betValue` contributes nothing. -/
def serializeBetEvent (m : BetEventMessage) : String :=
  "\x7b\"betId\":\"" ++ m.betId ++ "\",\"userId\":\"" ++ m.userId
  ++ "\",\"amount\":" ++ jnumToString m.amount
  ++ ",\"gameId\":\"" ++ m.gameId ++ "\",\"betType\":\"" ++ m.betType ++ "\""
  ++ (match m.betValue with
      | some v => ",\"betValue\":\"" ++ v ++ "\""
      | none => "")
  ++ ",\"odds\":" ++ jnumToString m.odds
  ++ ",\"potentialWin\":" ++ jnumToString m.potentialWin
  ++ ",\"transactionId\":\"" ++ m.transactionId ++ "\""
  ++ ",\"newBalance\":" ++ jnumToString m.newBalance
  ++ ",\"timestamp\":\"" ++ m.timestamp ++ "\"\x7d"

/-- An entry of the batcher's `messageQueue`: topic, key/value payload,
and `idx`, the serial number of the `publish` call whose completion
promise (`resolve`) this entry carries. -/
structure PendingMessage where
  topic : String
  key : String
  value : String
  idx : ℕ
  deriving DecidableEq, Repr

/-- An operation issued against the Kafka producer. -/
inductive BusOp
  | send (topic : String) (msgs : List PendingMessage)
  | disconnect
  deriving DecidableEq, Repr

/-- `BATCH_SIZE` (kafka.ts). -/
def BATCH_SIZE : ℕ := 100

/-- The batcher's mutable module state: the queue, the linger-timer
flag, the producer connection flag, the batches whose sends have been
issued but whose outcome has not landed yet (spliced off the queue,
tagged with their flush number), plus observation logs — the bus
operations that succeeded, the promise resolutions as
`(idx, flush number)` pairs, the promise rejections (by publish serial
number), a flush counter, and the next publish serial number. -/
structure BatcherState where
  messageQueue : List PendingMessage
  batchTimer : Bool
  isProducerConnected : Bool
  inFlight : List (ℕ × List PendingMessage)
  busLog : List BusOp
  resolved : List (ℕ × ℕ)
  rejections : List ℕ
  flushCount : ℕ
  nextIdx : ℕ
  deriving DecidableEq, Repr

/-- The batcher state at module load. -/
def initialBatcher : BatcherState :=
  { messageQueue := [], batchTimer := false, isProducerConnected := false,
    inFlight := [], busLog := [], resolved := [], rejections := [],
    flushCount := 0, nextIdx := 0 }

/-- Accumulator pass over the batch recording topics already seen. -/
def distinctTopicsAux : List String → List String → List String
  | [], _ => []
  | t :: ts, seen =>
      if seen.contains t then distinctTopicsAux ts seen
      else t :: distinctTopicsAux ts (t :: seen)

/-- The distinct topics of a batch, in first-occurrence order — the
keys of the `messagesByTopic` map built by `processBatch`. -/
def distinctTopics (l : List String) : List String := distinctTopicsAux l []

/-- `processBatch` (kafka.ts), up to its suspension point: return if
the queue is empty; otherwise synchronously splice up to `BATCH_SIZE`
messages off the queue, connect the producer, and issue the sends for
the batch.  The `await`ed outcome of those sends lands later, as a
`sendSuccessLands` (the code after `Promise.all`) or a
`sendFailureLands` (the `catch` handler) step; until then the batch is
recorded as in flight under its flush number. -/
def processBatch (s : BatcherState) : BatcherState :=
  if s.messageQueue.isEmpty then s
  else
    let batch := s.messageQueue.take BATCH_SIZE
    let rest := s.messageQueue.drop BATCH_SIZE
    { s with
      messageQueue := rest,
      isProducerConnected := true,
      inFlight := s.inFlight ++ [(s.flushCount, batch)],
      flushCount := s.flushCount + 1 }

/-- The success continuation of `processBatch` (after
`await Promise.all(sendPromises)`): the oldest outstanding batch's
per-topic sends succeeded against the bus, and every completion
promise of that batch is resolved (tagged with the batch's flush
number). -/
def sendSuccessLands (s : BatcherState) : BatcherState :=
  match s.inFlight with
  | [] => s
  | (f, batch) :: restFlights =>
      let topics := distinctTopics (batch.map (fun m => m.topic))
      { s with
        inFlight := restFlights,
        busLog := s.busLog ++ topics.map (fun tp =>
          BusOp.send tp (batch.filter (fun m => decide (m.topic = tp)))),
        resolved := s.resolved ++ batch.map (fun m => (m.idx, f)) }

/-- The `catch (error)` handler of `processBatch`: the oldest
outstanding batch's send failed; every completion promise of that
batch is rejected with the bus error and the producer is marked as
needing re-establishment (`isProducerConnected = false`).  Nothing is
re-queued. -/
def sendFailureLands (s : BatcherState) : BatcherState :=
  match s.inFlight with
  | [] => s
  | (_, batch) :: restFlights =>
      { s with
        inFlight := restFlights,
        rejections := s.rejections ++ batch.map (fun m => m.idx),
        isProducerConnected := false }

/-- `scheduleBatch` (kafka.ts): arm the linger timer unless already
armed. -/
def scheduleBatch (s : BatcherState) : BatcherState :=
  if s.batchTimer then s else { s with batchTimer := true }

/-- `publishBetEvent` (kafka.ts): connect the producer, serialize the
event, drop it silently if the wire form exceeds the 1 MB hard cap or
the 10 KB suspicious-size cap, otherwise append it (keyed by the wager
id) to the queue and either flush immediately (queue full) or arm the
linger timer. -/
def publishBetEvent (m : BetEventMessage) (s : BatcherState) : BatcherState :=
  let s1 := { s with isProducerConnected := true }
  let messageString := serializeBetEvent m
  let messageSize := messageString.length
  if messageSize > 1000000 then s1
  else if messageSize > 10000 then s1
  else
    let s2 := { s1 with
      messageQueue := s1.messageQueue ++
        [{ topic := "bet-events", key := m.betId, value := messageString,
           idx := s1.nextIdx }],
      nextIdx := s1.nextIdx + 1 }
    if BATCH_SIZE ≤ s2.messageQueue.length then processBatch s2
    else scheduleBatch s2

/-- `disconnectProducer` (kafka.ts): only if the producer is still
marked connected, run one `await processBatch()` — here the splice of
the remainder together with its awaited send, which is modelled as
succeeding (a healthy bus at shutdown) — and then disconnect the
producer.  If a send failure has already cleared
`isProducerConnected`, the whole body is skipped: no flush, no
disconnect. -/
def disconnectProducer (s : BatcherState) : BatcherState :=
  if s.isProducerConnected then
    if s.messageQueue.isEmpty then
      { s with isProducerConnected := false,
               busLog := s.busLog ++ [BusOp.disconnect] }
    else
      let batch := s.messageQueue.take BATCH_SIZE
      let rest := s.messageQueue.drop BATCH_SIZE
      let topics := distinctTopics (batch.map (fun m => m.topic))
      { s with
        messageQueue := rest,
        isProducerConnected := false,
        busLog := s.busLog ++ topics.map (fun tp =>
          BusOp.send tp (batch.filter (fun m => decide (m.topic = tp)))) ++
          [BusOp.disconnect],
        resolved := s.resolved ++ batch.map (fun m => (m.idx, s.flushCount)),
        flushCount := s.flushCount + 1 }
  else s

/-- External stimuli of the batcher: a `publishBetEvent` call, the
linger timer firing (the `setTimeout` callback clears the timer flag
and runs `processBatch`; it only ever fires while armed), or the
outcome of an issued send landing — successfully, or as the bus error
caught by `processBatch`'s handler. -/
inductive BatcherEvent
  | pub (m : BetEventMessage)
  | lingerFire
  | sendSuccess
  | sendFailure
  deriving DecidableEq, Repr

/-- One step of the batcher. -/
def batcherStep (s : BatcherState) (e : BatcherEvent) : BatcherState :=
  match e with
  | BatcherEvent.pub m => publishBetEvent m s
  | BatcherEvent.lingerFire =>
      if s.batchTimer then processBatch { s with batchTimer := false } else s
  | BatcherEvent.sendSuccess => sendSuccessLands s
  | BatcherEvent.sendFailure => sendFailureLands s

/-- Running the batcher from a state through a sequence of stimuli. -/
def runBatcher (s : BatcherState) (evs : List BatcherEvent) : BatcherState :=
  evs.foldl batcherStep s

/-- The sizes of the batches sent to the bus, in order. -/
def sentSizes (log : List BusOp) : List ℕ :=
  log.filterMap (fun op =>
    match op with
    | BusOp.send _ ms => some ms.length
    | BusOp.disconnect => none)

/-- The publish serial numbers of each batch sent to the bus. -/
def sentIdxs (log : List BusOp) : List (List ℕ) :=
  log.filterMap (fun op =>
    match op with
    | BusOp.send _ ms => some (ms.map (fun m => m.idx))
    | BusOp.disconnect => none)

/-- A small wager event for batch scenarios. -/
def smallEvent : BetEventMessage :=
  { betId := "b", userId := "u", amount := 1, gameId := "g",
    betType := "win", betValue := none, odds := 2, potentialWin := 2,
    transactionId := "tx", newBalance := 0, timestamp := "ts" }

/-- The 250-publish scenario of the spec: 250 events published back to
back (faster than the 10 ms linger), then the armed linger timer
fires, and the three issued sends succeed against the healthy bus. -/
def c5Events : List BatcherEvent :=
  List.replicate 250 (BatcherEvent.pub smallEvent) ++
    [BatcherEvent.lingerFire, BatcherEvent.sendSuccess,
     BatcherEvent.sendSuccess, BatcherEvent.sendSuccess]

/-- The batcher state after the 250-publish scenario. -/
def c5Run : BatcherState := runBatcher initialBatcher c5Events

/-- An analytics-store row of `bet_events` (the fields the aggregation
query reads; timestamps in minutes). -/
structure AnalyticsRow where
  bet_id : String
  user_id : String
  amount : ℚ
  timestamp : ℕ
  deriving DecidableEq, Repr

/-- The `groupBy` request parameter of the analytics query. -/
inductive GroupBy
  | hour
  | day
  deriving DecidableEq, Repr

/-- ClickHouse `toStartOfHour` over minute timestamps. -/
def toStartOfHour (t : ℕ) : ℕ := t / 60 * 60

/-- ClickHouse `toStartOfDay` over minute timestamps. -/
def toStartOfDay (t : ℕ) : ℕ := t / 1440 * 1440

/-- The bucket-truncation the generated query selects
(`toStartOf${groupBy === 'hour' ? 'Hour' : 'Day'}`). -/
def bucketStart (g : GroupBy) (t : ℕ) : ℕ :=
  match g with
  | GroupBy.hour => toStartOfHour t
  | GroupBy.day => toStartOfDay t

/-- The optional `timestamp >= ?` / `timestamp <= ?` filters appended
to the query. -/
def inRange (startDate endDate : Option ℕ) (t : ℕ) : Bool :=
  (match startDate with
   | some a => decide (a ≤ t)
   | none => true) &&
  (match endDate with
   | some b => decide (t ≤ b)
   | none => true)

/-- A result row of the analytics query. -/
structure AggRow where
  period : ℕ
  bet_count : ℕ
  total_amount : ℚ
  avg_amount : ℚ
  deriving DecidableEq, Repr

/-- `getBetAnalytics` (services/clickhouse.ts): the semantics of the
generated aggregation query — filter by the optional bounds, group by
the truncated timestamp, produce `count()`, `sum(amount)`,
`avg(amount)` per bucket, `ORDER BY period` ascending. -/
def getBetAnalytics (rows : List AnalyticsRow) (startDate endDate : Option ℕ)
    (groupBy : GroupBy) : List AggRow :=
  let filtered := rows.filter (fun r => inRange startDate endDate r.timestamp)
  let periods :=
    ((filtered.map (fun r => bucketStart groupBy r.timestamp)).dedup).insertionSort
      (fun a b => a ≤ b)
  periods.map (fun p =>
    let grp := filtered.filter (fun r => decide (bucketStart groupBy r.timestamp = p))
    { period := p, bet_count := grp.length,
      total_amount := (grp.map (fun r => r.amount)).sum,
      avg_amount := (grp.map (fun r => r.amount)).sum / (grp.length : ℚ) })

/-- The spec's aggregation example: rows at 09:05, 09:40, 10:10 with
amounts 10, 20, 30 (timestamps in minutes since midnight). -/
def c8Rows : List AnalyticsRow :=
  [{ bet_id := "b1", user_id := "u", amount := 10, timestamp := 9 * 60 + 5 },
   { bet_id := "b2", user_id := "u", amount := 20, timestamp := 9 * 60 + 40 },
   { bet_id := "b3", user_id := "u", amount := 30, timestamp := 10 * 60 + 10 }]

/-- A stored `bets` row as read back by the history query (the fields
the query filters, joins and orders on). -/
structure StoredBet where
  id : String
  user_id : String
  game_id : String
  created_at : ℕ
  deriving DecidableEq, Repr

/-- A `games` row (join target of the history query). -/
structure GameRow where
  id : String
  name : String
  deriving DecidableEq, Repr

/-- The `pagination` object of a bet-history response. -/
structure HistoryPagination where
  limit : ℕ
  offset : ℕ
  total : ℕ
  deriving DecidableEq, Repr

/-- A bet-history response. -/
structure BetHistoryResult where
  userId : String
  bets : List StoredBet
  pagination : HistoryPagination
  deriving DecidableEq, Repr

/-- `BetService.getBetHistory` (services/bet.ts): inner-join `bets`
with `games`, keep the caller's rows, order newest-first, apply
`OFFSET`/`LIMIT`, and report `pagination.total := result.rows.length`. -/
def getBetHistory (bets : List StoredBet) (games : List GameRow)
    (userId : String) (limit offset : ℕ) : BetHistoryResult :=
  let rows :=
    ((((bets.filter (fun b =>
        decide (b.user_id = userId) &&
          games.any (fun g => decide (g.id = b.game_id)))).insertionSort
        (fun a b => b.created_at ≤ a.created_at)).drop offset).take limit)
  { userId := userId, bets := rows,
    pagination := { limit := limit, offset := offset, total := rows.length } }

/-- A demo account with balance 100.00. -/
def demoUser : UserRow := { id := "u1", balance := 100, version := 0 }

/-- Ledger state holding just the demo account. -/
def demoState : LedgerState := { users := [demoUser], bets := [], txns := [] }

/-- A wager request against the demo account. -/
def mkReq (amt odds : ℚ) : BetRequest :=
  { userId := "u1", gameId := "g1", amount := amt, betType := "win",
    betValue := none, odds := odds }

/-- Ledger state whose only account has balance 10.00. -/
def lowState : LedgerState :=
  { users := [{ id := "u1", balance := 10, version := 0 }], bets := [], txns := [] }

/-- Two wagers against the demo account: stake 30 (accepted), then
stake 80 (rejected, 70 < 80). -/
def c1Calls : List (BetRequest × String × String) :=
  [(mkReq 30 2, "b1", "t1"), (mkReq 80 2, "b2", "t2")]

/-- The queue entry of the `i`-th publish of `smallEvent`. -/
def c5Msg (i : ℕ) : PendingMessage :=
  { topic := "bet-events", key := "b", value := serializeBetEvent smallEvent,
    idx := i }

/-- `n` consecutive queue entries starting at serial `start`. -/
def c5Batch (start n : ℕ) : List PendingMessage :=
  (List.range' start n).map c5Msg

/-- Batcher state after the first 100 publishes of the 250-publish
scenario: one full batch spliced and in flight, linger timer still
armed (the code never clears it on a size-triggered flush). -/
def c5State1 : BatcherState :=
  { messageQueue := [], batchTimer := true, isProducerConnected := true,
    inFlight := [(0, c5Batch 0 100)],
    busLog := [], resolved := [], rejections := [],
    flushCount := 1, nextIdx := 100 }

/-- Batcher state after 200 publishes: two full batches in flight. -/
def c5State2 : BatcherState :=
  { messageQueue := [], batchTimer := true, isProducerConnected := true,
    inFlight := [(0, c5Batch 0 100), (1, c5Batch 100 100)],
    busLog := [], resolved := [], rejections := [],
    flushCount := 2, nextIdx := 200 }

/-- Batcher state after all 250 publishes, the linger-timer flush of
the remaining 50, and the successful landing of all three sends. -/
def c5State3 : BatcherState :=
  { messageQueue := [], batchTimer := false, isProducerConnected := true,
    inFlight := [],
    busLog := [BusOp.send "bet-events" (c5Batch 0 100),
               BusOp.send "bet-events" (c5Batch 100 100),
               BusOp.send "bet-events" (c5Batch 200 50)],
    resolved := ((List.range' 0 100).map (fun i => (i, 0)) ++
      (List.range' 100 100).map (fun i => (i, 1))) ++
      (List.range' 200 50).map (fun i => (i, 2)),
    rejections := [],
    flushCount := 3, nextIdx := 250 }

/-- A 1000001-character string. -/
def bigValue : String := String.mk (List.replicate 1000001 'a')

/-- An event whose serialized wire form exceeds the 1 MB hard cap. -/
def bigEvent : BetEventMessage := { smallEvent with betValue := some bigValue }

/-- Three publishes with no timer fire: at shutdown the queue still
holds all three messages. -/
def c7Events : List BatcherEvent :=
  List.replicate 3 (BatcherEvent.pub smallEvent)

/-- The send-failure interleaving: three events are published and the
linger timer flushes them (send in flight); while that send is in
flight two more publishes refill the queue (their `connectProducer`
sees the flag still true, so it is a no-op); then the send's failure
lands — the catch rejects the flushed batch's promises and clears
`isProducerConnected`.  The queue now holds two messages while the
producer is marked disconnected. -/
def c7FailEvents : List BatcherEvent :=
  [BatcherEvent.pub smallEvent, BatcherEvent.pub smallEvent,
   BatcherEvent.pub smallEvent, BatcherEvent.lingerFire,
   BatcherEvent.pub smallEvent, BatcherEvent.pub smallEvent,
   BatcherEvent.sendFailure]

/-- Three stored bets of one user (newest `created_at` last). -/
def c10Bets : List StoredBet :=
  [{ id := "b1", user_id := "u", game_id := "g", created_at := 1 },
   { id := "b2", user_id := "u", game_id := "g", created_at := 2 },
   { id := "b3", user_id := "u", game_id := "g", created_at := 3 }]

/-- The game the stored bets reference. -/
def c10Games : List GameRow := [{ id := "g", name := "demo game" }]

/-!  ## Ledger lemmas  -/

lemma casRowCount_ne_zero {users : List UserRow} {uid : String} {u : UserRow}
    (h : users.find? (fun v => decide (v.id = uid)) = some u) :
    ¬ casRowCount users uid u.version = 0 := by
  have hmem : u ∈ users := List.mem_of_find?_eq_some h
  have hid : u.id = uid :=
    of_decide_eq_true
      (List.find?_some (p := fun (v : UserRow) => decide (v.id = uid)) h)
  have : 0 < casRowCount users uid u.version := by
    unfold casRowCount
    exact List.countP_pos_iff.mpr ⟨u, hmem, by simp [hid]⟩
  omega

lemma find?_casUpdate {users : List UserRow} {uid : String} {u : UserRow}
    (nb : ℚ) (h : users.find? (fun v => decide (v.id = uid)) = some u) :
    (casUpdate users uid nb u.version).find? (fun v => decide (v.id = uid)) =
      some { u with balance := nb, version := u.version + 1 } := by
  induction users with
  | nil => simp at h
  | cons x xs ih =>
      by_cases hx : x.id = uid
      · rw [List.find?_cons_of_pos _ (by simpa using hx)] at h
        obtain rfl : x = u := by injection h
        simp only [casUpdate, List.map_cons]
        rw [if_pos (show x.id = uid ∧ True from ⟨hx, trivial⟩)]
        exact List.find?_cons_of_pos _ (by simpa using hx)
      · rw [List.find?_cons_of_neg _ (by simpa using hx)] at h
        simp only [casUpdate, List.map_cons]
        rw [if_neg (by simp [hx])]
        rw [List.find?_cons_of_neg _ (by simpa using hx)]
        exact ih h

lemma processBet_not_found {r : BetRequest} {b t : String} {s : LedgerState}
    (hu : selectUserForUpdate s.users r.userId = none) :
    processBet r b t s =
      ({ betId := b, status := BetStatus.rejected,
         error := some "User not found" }, s) := by
  simp [processBet, hu]

lemma processBet_insufficient {r : BetRequest} {b t : String} {s : LedgerState}
    {u : UserRow} (hu : selectUserForUpdate s.users r.userId = some u)
    (hlt : u.balance < r.amount) :
    processBet r b t s =
      ({ betId := b, status := BetStatus.rejected,
         error := some "Insufficient balance",
         currentBalance := some u.balance }, s) := by
  simp [processBet, hu, hlt]

lemma processBet_commit {r : BetRequest} {b t : String} {s : LedgerState}
    {u : UserRow} (hu : selectUserForUpdate s.users r.userId = some u)
    (hge : ¬ u.balance < r.amount) :
    processBet r b t s =
      ({ betId := b, status := BetStatus.accepted,
         transactionId := some t,
         newBalance := some (u.balance - r.amount),
         potentialWin := some (r.amount * r.odds) },
       { users := casUpdate s.users r.userId (u.balance - r.amount) u.version,
         bets := s.bets ++
           [{ id := b, user_id := r.userId, game_id := r.gameId,
              amount := r.amount, bet_type := r.betType,
              bet_value := r.betValue, odds := r.odds,
              potential_win := r.amount * r.odds, status := "pending" }],
         txns := s.txns ++
           [{ user_id := r.userId, transaction_id := t,
              transaction_type := "bet", amount := r.amount,
              balance_before := u.balance,
              balance_after := u.balance - r.amount,
              bet_id := some b }] }) := by
  have hrc : ¬ casRowCount s.users r.userId u.version = 0 :=
    casRowCount_ne_zero (by simpa [selectUserForUpdate] using hu)
  simp [processBet, hu, hge, hrc]

lemma getBalance_commit {r : BetRequest} {b t : String} {s : LedgerState}
    {u : UserRow} (hu : selectUserForUpdate s.users r.userId = some u)
    (hge : ¬ u.balance < r.amount) :
    getBalance (processBet r b t s).2 r.userId = some (u.balance - r.amount) := by
  rw [processBet_commit hu hge]
  unfold getBalance selectUserForUpdate
  rw [find?_casUpdate (u.balance - r.amount)
        (by simpa [selectUserForUpdate] using hu)]
  rfl

lemma processBet_step (r : BetRequest) (b t : String) (s : LedgerState) :
    ((processBet r b t s).1.status ≠ BetStatus.accepted ∧
      (processBet r b t s).2 = s)
    ∨ ((processBet r b t s).1.status = BetStatus.accepted ∧
       ∃ u, selectUserForUpdate s.users r.userId = some u ∧
         r.amount ≤ u.balance ∧
         getBalance (processBet r b t s).2 r.userId =
           some (u.balance - r.amount)) := by
  cases hu : selectUserForUpdate s.users r.userId with
  | none => exact Or.inl (by simp [processBet_not_found hu])
  | some u =>
      by_cases hlt : u.balance < r.amount
      · exact Or.inl (by simp [processBet_insufficient hu hlt])
      · refine Or.inr ⟨?_, ⟨u, rfl, not_lt.mp hlt, getBalance_commit hu hlt⟩⟩
        simp [processBet_commit hu hlt]

lemma getBalance_some {s : LedgerState} {uid : String} {u : UserRow}
    (hu : selectUserForUpdate s.users uid = some u) :
    getBalance s uid = some u.balance := by
  unfold getBalance
  rw [hu]
  rfl

lemma processBetWithFault_state (r : BetRequest) (b t : String) (f : DbFault)
    (s : LedgerState) (hf : f ≠ DbFault.noFault) :
    (processBetWithFault r b t f s).2 = s := by
  unfold processBetWithFault
  cases hu : selectUserForUpdate s.users r.userId with
  | none => rfl
  | some u =>
      by_cases hlt : u.balance < r.amount
      · simp [hlt]
      · cases f with
        | noFault => exact absurd rfl hf
        | atUpdate => simp [hlt]
        | atInsertBet => simp [hlt]; split <;> simp
        | atInsertTxn => simp [hlt]; split <;> simp
        | atCommit => simp [hlt]; split <;> simp

/-!  ## Claim theorems: transactional ledger  -/

/-- C1: for every sequence of `placeWager` calls against one account,
the final balance equals the initial balance minus the sum of the
stakes of exactly the calls that returned an accepted result, and the
balance is never negative at any point in the sequence. -/
theorem c1_balance_conservation
    (calls : List (BetRequest × String × String)) (uid : String) (b0 : ℚ)
    (s0 : LedgerState)
    (hcalls : ∀ c ∈ calls, c.1.userId = uid)
    (hbal : getBalance s0 uid = some b0) (hb0 : 0 ≤ b0) :
    getBalance (runBets calls s0).2 uid =
      some (b0 - acceptedStakeSum calls s0)
    ∧ ∀ i b, getBalance (runBets (calls.take i) s0).2 uid = some b → 0 ≤ b := by
  induction calls generalizing s0 b0 with
  | nil =>
      refine ⟨by simpa [runBets, acceptedStakeSum] using hbal, ?_⟩
      intro i b hb
      simp only [List.take_nil, runBets] at hb
      rw [hbal] at hb
      injection hb with hb'
      exact hb' ▸ hb0
  | cons c rest ih =>
      rcases processBet_step c.1 c.2.1 c.2.2 s0 with
        ⟨hne, hs⟩ | ⟨hacc, u, hu, hle, hbal'⟩
      · have hsum : acceptedStakeSum (c :: rest) s0 =
            acceptedStakeSum rest s0 := by
          simp [acceptedStakeSum, hs, hne]
        have hrun : (runBets (c :: rest) s0).2 = (runBets rest s0).2 := by
          simp [runBets, hs]
        obtain ⟨ih1, ih2⟩ :=
          ih _ _ (fun x hx => hcalls x (List.mem_cons_of_mem _ hx)) hbal hb0
        refine ⟨by rw [hrun, hsum]; exact ih1, ?_⟩
        intro i b hb
        cases i with
        | zero =>
            simp only [List.take_zero, runBets] at hb
            rw [hbal] at hb
            injection hb with hb'
            exact hb' ▸ hb0
        | succ j =>
            rw [List.take_succ_cons] at hb
            have : (runBets (c :: rest.take j) s0).2 =
                (runBets (rest.take j) s0).2 := by
              simp [runBets, hs]
            rw [this] at hb
            exact ih2 j b hb
      · have huid : c.1.userId = uid := hcalls c (List.mem_cons_self _ _)
        have hb0u : b0 = u.balance := by
          have h := getBalance_some (huid ▸ hu)
          rw [hbal] at h
          exact Option.some.inj h
        have hbal1 : getBalance (processBet c.1 c.2.1 c.2.2 s0).2 uid =
            some (b0 - c.1.amount) := by
          rw [← huid, hbal', hb0u]
        have hb1 : 0 ≤ b0 - c.1.amount :=
          sub_nonneg.mpr (hb0u ▸ hle)
        obtain ⟨ih1, ih2⟩ :=
          ih _ _ (fun x hx => hcalls x (List.mem_cons_of_mem _ hx)) hbal1 hb1
        have hsum : acceptedStakeSum (c :: rest) s0 =
            c.1.amount + acceptedStakeSum rest (processBet c.1 c.2.1 c.2.2 s0).2 := by
          simp [acceptedStakeSum, hacc]
        have hrun : (runBets (c :: rest) s0).2 =
            (runBets rest (processBet c.1 c.2.1 c.2.2 s0).2).2 := by
          simp [runBets]
        refine ⟨?_, ?_⟩
        · rw [hrun, hsum, ih1, sub_sub]
        · intro i b hb
          cases i with
          | zero =>
              simp only [List.take_zero, runBets] at hb
              rw [hbal] at hb
              injection hb with hb'
              exact hb' ▸ hb0
          | succ j =>
              rw [List.take_succ_cons] at hb
              have : (runBets (c :: rest.take j) s0).2 =
                  (runBets (rest.take j) (processBet c.1 c.2.1 c.2.2 s0).2).2 := by
                simp [runBets]
              rw [this] at hb
              exact ih2 j b hb

/-- Witness for C1 at a concrete run: balance 100, stakes 30 (accepted)
then 80 (rejected because 70 < 80); the final balance is 100 minus the
accepted stake. -/
theorem c1_balance_conservation_witness :
    getBalance (runBets c1Calls demoState).2 "u1" =
      some (100 - acceptedStakeSum c1Calls demoState) :=
  (c1_balance_conservation c1Calls "u1" 100 demoState (by decide) (by decide)
    (by norm_num)).1

/-- C2: a `placeWager` call debits the account exactly when it creates
exactly one wager row and one wallet-transaction row, all in the same
atomic state transition; every rejection leaves the state unchanged,
the no-fault fault model agrees with `processBet`, and any injected
infrastructure fault rolls the state back unchanged. -/
theorem c2_atomicity (r : BetRequest) (b t : String) (s : LedgerState)
    (hamt : 0 < r.amount) :
    ((processBet r b t s).1.status = BetStatus.accepted ↔
      (processBet r b t s).2.bets.length = s.bets.length + 1)
    ∧ ((processBet r b t s).1.status = BetStatus.accepted ↔
      (processBet r b t s).2.txns.length = s.txns.length + 1)
    ∧ ((processBet r b t s).1.status = BetStatus.accepted ↔
      getBalance (processBet r b t s).2 r.userId ≠ getBalance s r.userId)
    ∧ ((processBet r b t s).1.status = BetStatus.rejected →
      (processBet r b t s).2 = s)
    ∧ processBetWithFault r b t DbFault.noFault s =
        (Except.ok (processBet r b t s).1, (processBet r b t s).2)
    ∧ (∀ f, f ≠ DbFault.noFault → (processBetWithFault r b t f s).2 = s) := by
  have hfault : ∀ f, f ≠ DbFault.noFault →
      (processBetWithFault r b t f s).2 = s :=
    fun f hf => processBetWithFault_state r b t f s hf
  cases hu : selectUserForUpdate s.users r.userId with
  | none =>
      refine ⟨?_, ?_, ?_, ?_, ?_, hfault⟩ <;>
        simp [processBet_not_found hu, processBetWithFault, hu]
  | some u =>
      by_cases hlt : u.balance < r.amount
      · refine ⟨?_, ?_, ?_, ?_, ?_, hfault⟩ <;>
          simp [processBet_insufficient hu hlt, processBetWithFault, hu, hlt]
      · have hrc : ¬ casRowCount s.users r.userId u.version = 0 :=
          casRowCount_ne_zero (by simpa [selectUserForUpdate] using hu)
        have hbal2 := getBalance_commit (b := b) (t := t) hu hlt
        have hne : u.balance - r.amount ≠ u.balance := by
          intro h
          rw [sub_eq_self] at h
          exact absurd h (ne_of_gt hamt)
        refine ⟨?_, ?_, ?_, ?_, ?_, hfault⟩
        · simp [processBet_commit hu hlt]
        · simp [processBet_commit hu hlt]
        · rw [hbal2, getBalance_some hu, processBet_commit hu hlt]
          simp [hne]
        · simp [processBet_commit hu hlt]
        · simp [processBetWithFault, hu, hlt, hrc, processBet_commit hu hlt]

/-- Witness for C2 at a concrete accepted call: stake 50 against
balance 100 creates exactly one wager row. -/
theorem c2_atomicity_witness :
    (processBet (mkReq 50 2) "b1" "t1" demoState).1.status = BetStatus.accepted ↔
      (processBet (mkReq 50 2) "b1" "t1" demoState).2.bets.length =
        demoState.bets.length + 1 :=
  (c2_atomicity (mkReq 50 2) "b1" "t1" demoState (by norm_num [mkReq])).1

/-- C3: a `placeWager` call on an existing account whose balance covers
the stake is accepted, with `newBalance = balance - stake` and
`potentialPayout = stake * odds`. -/
theorem c3_accepted_result (r : BetRequest) (b t : String) (s : LedgerState)
    (u : UserRow) (hu : selectUserForUpdate s.users r.userId = some u)
    (hle : r.amount ≤ u.balance) :
    (processBet r b t s).1.status = BetStatus.accepted
    ∧ (processBet r b t s).1.newBalance = some (u.balance - r.amount)
    ∧ (processBet r b t s).1.potentialWin = some (r.amount * r.odds)
    ∧ (processBet r b t s).1.transactionId = some t := by
  rw [processBet_commit hu (not_lt.mpr hle)]
  exact ⟨rfl, rfl, rfl, rfl⟩

/-- Witness for C3: balance 100.00, stake 50.00 at odds 2.00 yields an
accepted result with newBalance 50.00 and potential payout 100.00. -/
theorem c3_accepted_result_witness :
    (processBet (mkReq 50 2) "b1" "t1" demoState).1.status = BetStatus.accepted
    ∧ (processBet (mkReq 50 2) "b1" "t1" demoState).1.newBalance = some 50
    ∧ (processBet (mkReq 50 2) "b1" "t1" demoState).1.potentialWin = some 100 := by
  obtain ⟨h1, h2, h3, _⟩ :=
    c3_accepted_result (mkReq 50 2) "b1" "t1" demoState demoUser (by decide)
      (by norm_num [mkReq, demoUser])
  refine ⟨h1, ?_, ?_⟩
  · rw [h2]
    norm_num [demoUser, mkReq]
  · rw [h3]
    norm_num [mkReq]

/-- C4: a `placeWager` call on an existing account whose balance is
strictly below the stake is rejected with the insufficient-balance
error carrying the current balance, and the whole state is unchanged. -/
theorem c4_insufficient_balance (r : BetRequest) (b t : String)
    (s : LedgerState) (u : UserRow)
    (hu : selectUserForUpdate s.users r.userId = some u)
    (hlt : u.balance < r.amount) :
    (processBet r b t s).1.status = BetStatus.rejected
    ∧ (processBet r b t s).1.error = some "Insufficient balance"
    ∧ (processBet r b t s).1.currentBalance = some u.balance
    ∧ (processBet r b t s).2 = s := by
  rw [processBet_insufficient hu hlt]
  exact ⟨rfl, rfl, rfl, rfl⟩

/-- Witness for C4: balance 10.00 with stake 50.00 yields the
insufficient-balance rejection with currentBalance 10.00 and leaves the
state unchanged. -/
theorem c4_insufficient_balance_witness :
    (processBet (mkReq 50 2) "b1" "t1" lowState).1.status = BetStatus.rejected
    ∧ (processBet (mkReq 50 2) "b1" "t1" lowState).1.error =
        some "Insufficient balance"
    ∧ (processBet (mkReq 50 2) "b1" "t1" lowState).1.currentBalance = some 10
    ∧ (processBet (mkReq 50 2) "b1" "t1" lowState).2 = lowState :=
  c4_insufficient_balance (mkReq 50 2) "b1" "t1" lowState
    { id := "u1", balance := 10, version := 0 } (by decide) (by norm_num [mkReq])

/-!  ## Event-batcher lemmas  -/

lemma runBatcher_append (s : BatcherState) (a b : List BatcherEvent) :
    runBatcher s (a ++ b) = runBatcher (runBatcher s a) b := by
  simp [runBatcher]

set_option maxRecDepth 400000 in
lemma c5_phase1 : runBatcher initialBatcher
    (List.replicate 100 (BatcherEvent.pub smallEvent)) = c5State1 := by
  decide

set_option maxRecDepth 400000 in
lemma c5_phase2 : runBatcher c5State1
    (List.replicate 100 (BatcherEvent.pub smallEvent)) = c5State2 := by
  decide

set_option maxRecDepth 400000 in
lemma c5_phase3 : runBatcher c5State2
    (List.replicate 50 (BatcherEvent.pub smallEvent) ++
      [BatcherEvent.lingerFire, BatcherEvent.sendSuccess,
       BatcherEvent.sendSuccess, BatcherEvent.sendSuccess]) = c5State3 := by
  decide

set_option maxRecDepth 400000 in
lemma c5_events_split : c5Events =
    List.replicate 100 (BatcherEvent.pub smallEvent) ++
      (List.replicate 100 (BatcherEvent.pub smallEvent) ++
        (List.replicate 50 (BatcherEvent.pub smallEvent) ++
          [BatcherEvent.lingerFire, BatcherEvent.sendSuccess,
           BatcherEvent.sendSuccess, BatcherEvent.sendSuccess])) := by
  decide

lemma c5_run_eq : c5Run = c5State3 := by
  rw [c5Run, c5_events_split, runBatcher_append, runBatcher_append,
    c5_phase1, c5_phase2]
  exact c5_phase3

lemma distinctTopicsAux_of_mem (c : String) (l : List String)
    (h : ∀ x ∈ l, x = c) (seen : List String)
    (hc : seen.contains c = true) : distinctTopicsAux l seen = [] := by
  induction l generalizing seen with
  | nil => rfl
  | cons t ts ih =>
      obtain rfl : t = c := h t (List.mem_cons_self _ _)
      rw [distinctTopicsAux, if_pos hc]
      exact ih (fun x hx => h x (List.mem_cons_of_mem _ hx)) seen hc

lemma distinctTopics_const (c : String) (l : List String) (hne : l ≠ [])
    (h : ∀ x ∈ l, x = c) : distinctTopics l = [c] := by
  cases l with
  | nil => exact absurd rfl hne
  | cons t ts =>
      obtain rfl : t = c := h t (List.mem_cons_self _ _)
      rw [distinctTopics, distinctTopicsAux, if_neg (by simp)]
      rw [distinctTopicsAux_of_mem t ts
        (fun x hx => h x (List.mem_cons_of_mem _ hx)) [t] (by simp)]

lemma scheduleBatch_messageQueue (s : BatcherState) :
    (scheduleBatch s).messageQueue = s.messageQueue := by
  unfold scheduleBatch
  split <;> rfl

lemma scheduleBatch_isProducerConnected (s : BatcherState) :
    (scheduleBatch s).isProducerConnected = s.isProducerConnected := by
  unfold scheduleBatch
  split <;> rfl

lemma sendSuccessLands_messageQueue (s : BatcherState) :
    (sendSuccessLands s).messageQueue = s.messageQueue := by
  rcases hf : s.inFlight with _ | ⟨⟨f, b⟩, tl⟩ <;>
    simp [sendSuccessLands, hf]

lemma sendFailureLands_messageQueue (s : BatcherState) :
    (sendFailureLands s).messageQueue = s.messageQueue := by
  rcases hf : s.inFlight with _ | ⟨⟨f, b⟩, tl⟩ <;>
    simp [sendFailureLands, hf]

lemma processBatch_inv (s : BatcherState)
    (h1 : s.messageQueue.length ≤ BATCH_SIZE)
    (h3 : ∀ m ∈ s.messageQueue, m.topic = "bet-events") :
    (processBatch s).messageQueue.length < BATCH_SIZE
    ∧ (∀ m ∈ (processBatch s).messageQueue, m.topic = "bet-events") := by
  unfold processBatch
  by_cases hq : s.messageQueue.isEmpty
  · rw [if_pos hq]
    rw [List.isEmpty_iff] at hq
    refine ⟨?_, ?_⟩
    · rw [hq]
      decide
    · intro m hm
      exact h3 m hm
  · rw [if_neg hq]
    refine ⟨?_, ?_⟩
    · simp only [List.length_drop]
      have : 0 < s.messageQueue.length := by
        rw [List.isEmpty_iff] at hq
        exact List.length_pos.mpr hq
      have hB : 0 < BATCH_SIZE := by decide
      omega
    · intro m hm
      exact h3 m (List.mem_of_mem_drop hm)

lemma batcher_inv_step (s : BatcherState) (e : BatcherEvent)
    (h1 : s.messageQueue.length < BATCH_SIZE)
    (h3 : ∀ m ∈ s.messageQueue, m.topic = "bet-events") :
    (batcherStep s e).messageQueue.length < BATCH_SIZE
    ∧ (∀ m ∈ (batcherStep s e).messageQueue, m.topic = "bet-events") := by
  cases e with
  | lingerFire =>
      simp only [batcherStep]
      by_cases ht : s.batchTimer
      · rw [if_pos ht]
        exact processBatch_inv _ (le_of_lt h1) h3
      · rw [if_neg ht]
        exact ⟨h1, h3⟩
  | sendSuccess =>
      simp only [batcherStep]
      rw [sendSuccessLands_messageQueue]
      exact ⟨h1, h3⟩
  | sendFailure =>
      simp only [batcherStep]
      rw [sendFailureLands_messageQueue]
      exact ⟨h1, h3⟩
  | pub m =>
      simp only [batcherStep, publishBetEvent]
      by_cases hbig : (serializeBetEvent m).length > 1000000
      · rw [if_pos hbig]
        exact ⟨h1, h3⟩
      · rw [if_neg hbig]
        by_cases hsus : (serializeBetEvent m).length > 10000
        · rw [if_pos hsus]
          exact ⟨h1, h3⟩
        · rw [if_neg hsus]
          have htop : ∀ x ∈ s.messageQueue ++
              [{ topic := "bet-events", key := m.betId,
                 value := serializeBetEvent m,
                 idx := s.nextIdx : PendingMessage }], x.topic = "bet-events" := by
            intro x hx
            rcases List.mem_append.mp hx with hx | hx
            · exact h3 x hx
            · rw [List.mem_singleton] at hx
              rw [hx]
          by_cases hfull : BATCH_SIZE ≤ (s.messageQueue ++
              [{ topic := "bet-events", key := m.betId,
                 value := serializeBetEvent m,
                 idx := s.nextIdx : PendingMessage }]).length
          · rw [if_pos hfull]
            refine processBatch_inv _ ?_ htop
            simp only [List.length_append, List.length_singleton]
            simp only [List.length_append, List.length_singleton] at hfull
            omega
          · rw [if_neg hfull]
            refine ⟨?_, ?_⟩
            · rw [scheduleBatch_messageQueue]
              exact Nat.lt_of_not_le hfull
            · intro x hx
              rw [scheduleBatch_messageQueue] at hx
              exact htop x hx

lemma batcher_inv_run (evs : List BatcherEvent) (s : BatcherState)
    (h1 : s.messageQueue.length < BATCH_SIZE)
    (h3 : ∀ m ∈ s.messageQueue, m.topic = "bet-events") :
    (runBatcher s evs).messageQueue.length < BATCH_SIZE
    ∧ (∀ m ∈ (runBatcher s evs).messageQueue, m.topic = "bet-events") := by
  induction evs generalizing s with
  | nil => exact ⟨h1, h3⟩
  | cons e rest ih =>
      obtain ⟨g1, g3⟩ := batcher_inv_step s e h1 h3
      exact ih (batcherStep s e) g1 g3

lemma bigValue_length : bigValue.length = 1000001 := by
  have h : bigValue.length = (List.replicate 1000001 'a').length := rfl
  rw [h, List.length_replicate]

lemma serializeBetEvent_bigEvent_length :
    (serializeBetEvent bigEvent).length > 1000000 := by
  simp only [serializeBetEvent, bigEvent, smallEvent, String.length_append]
  rw [bigValue_length]
  omega

/-!  ## Claim theorems: event batcher  -/

set_option maxRecDepth 400000 in
/-- C5: publishing 250 events with `BATCH_SIZE = 100` produces exactly
three flush operations of 100, 100 and 50 messages, the queue drains
completely, every one of the 250 publish calls resolves, and each call
resolves at (hence only after) the flush whose batch contains its
message. -/
theorem c5_batching_flushes :
    sentSizes c5Run.busLog = [100, 100, 50]
    ∧ c5Run.messageQueue = []
    ∧ c5Run.resolved.map Prod.fst = List.range 250
    ∧ ∀ p ∈ c5Run.resolved, p.1 ∈ (sentIdxs c5Run.busLog).getD p.2 [] := by
  rw [c5_run_eq]
  refine ⟨by decide, by decide, by decide, by decide⟩

/-- C6: an event whose serialized wire form exceeds the 1 MB hard cap
is never enqueued and no bus send is issued for it; the publish call
returns normally, its only effect being the producer connection. -/
theorem c6_oversize_silent_drop (m : BetEventMessage) (s : BatcherState)
    (h : (serializeBetEvent m).length > 1000000) :
    (publishBetEvent m s).messageQueue = s.messageQueue
    ∧ (publishBetEvent m s).busLog = s.busLog
    ∧ publishBetEvent m s = { s with isProducerConnected := true } := by
  unfold publishBetEvent
  rw [if_pos h]
  exact ⟨rfl, rfl, rfl⟩

/-- Witness for C6: a concrete event with a 1000001-character selection
is silently dropped — nothing is queued and nothing reaches the bus. -/
theorem c6_oversize_silent_drop_witness :
    (publishBetEvent bigEvent initialBatcher).messageQueue = []
    ∧ (publishBetEvent bigEvent initialBatcher).busLog = [] := by
  obtain ⟨h1, h2, _⟩ :=
    c6_oversize_silent_drop bigEvent initialBatcher
      serializeBetEvent_bigEvent_length
  exact ⟨h1, h2⟩

set_option maxRecDepth 400000 in
/-- Counterexample to C7 as stated: in the reachable run `c7FailEvents`
a flush's send fails only after two later publishes have refilled the
queue, leaving a non-empty queue with the producer marked
disconnected.  `disconnectProducer` then skips its entire body: the
two queued messages are still queued afterwards, nothing is ever sent
to the bus, and even the disconnect is skipped — the shutdown path
does not flush the remainder. -/
theorem c7_shutdown_not_draining_counterexample :
    (runBatcher initialBatcher c7FailEvents).messageQueue.length = 2
    ∧ (runBatcher initialBatcher c7FailEvents).isProducerConnected = false
    ∧ (runBatcher initialBatcher c7FailEvents).rejections = [0, 1, 2]
    ∧ disconnectProducer (runBatcher initialBatcher c7FailEvents) =
        runBatcher initialBatcher c7FailEvents
    ∧ sentSizes
        (disconnectProducer (runBatcher initialBatcher c7FailEvents)).busLog =
        [] := by
  refine ⟨by decide, by decide, by decide, by decide, by decide⟩

/-- C7 (amended): for every reachable batcher state whose producer is
still marked connected at shutdown — that is, no bus-send failure has
cleared `isProducerConnected` since the last connect — the shutdown
path flushes the entire remaining queue to the bus in one awaited
send, before the producer disconnect, and leaves the queue empty.
(When a send failure has already cleared the flag,
`disconnectProducer` flushes nothing: see the counterexample.) -/
theorem c7_shutdown_drains (evs : List BatcherEvent)
    (hconn : (runBatcher initialBatcher evs).isProducerConnected = true) :
    (disconnectProducer (runBatcher initialBatcher evs)).messageQueue = []
    ∧ ((runBatcher initialBatcher evs).messageQueue ≠ [] →
        (disconnectProducer (runBatcher initialBatcher evs)).busLog =
          (runBatcher initialBatcher evs).busLog ++
            [BusOp.send "bet-events"
               (runBatcher initialBatcher evs).messageQueue,
             BusOp.disconnect]) := by
  obtain ⟨h1, h3⟩ :=
    batcher_inv_run evs initialBatcher (by decide) (by simp [initialBatcher])
  by_cases hq : (runBatcher initialBatcher evs).messageQueue = []
  · refine ⟨?_, fun hne => absurd hq hne⟩
    unfold disconnectProducer
    rw [if_pos hconn, if_pos (List.isEmpty_iff.mpr hq)]
    exact hq
  · have htake : (runBatcher initialBatcher evs).messageQueue.take BATCH_SIZE =
        (runBatcher initialBatcher evs).messageQueue :=
      List.take_of_length_le (le_of_lt h1)
    have hdrop : (runBatcher initialBatcher evs).messageQueue.drop BATCH_SIZE =
        [] :=
      List.drop_eq_nil_of_le (le_of_lt h1)
    have htopics : distinctTopics
        ((runBatcher initialBatcher evs).messageQueue.map
          (fun m => m.topic)) = ["bet-events"] := by
      refine distinctTopics_const _ _ (by simpa using hq) ?_
      intro x hx
      obtain ⟨m, hm, rfl⟩ := List.mem_map.mp hx
      exact h3 m hm
    have hfilter : (runBatcher initialBatcher evs).messageQueue.filter
        (fun m => decide (m.topic = "bet-events")) =
        (runBatcher initialBatcher evs).messageQueue :=
      List.filter_eq_self.mpr (fun a ha => by simpa using h3 a ha)
    unfold disconnectProducer
    rw [if_pos hconn,
      if_neg (by simpa [List.isEmpty_iff] using hq)]
    refine ⟨by simp only [htake, hdrop], fun _ => ?_⟩
    simp only [htake, hdrop, htopics, hfilter, List.map_cons, List.map_nil,
      List.append_assoc, List.singleton_append, List.cons_append,
      List.nil_append]

set_option maxRecDepth 400000 in
/-- Witness for C7 (amended): after three publishes with a healthy bus
(queue still holding all three messages, producer connected), shutdown
sends exactly that remainder and then disconnects. -/
theorem c7_shutdown_drains_witness :
    (disconnectProducer (runBatcher initialBatcher c7Events)).messageQueue = []
    ∧ (disconnectProducer (runBatcher initialBatcher c7Events)).busLog =
        (runBatcher initialBatcher c7Events).busLog ++
          [BusOp.send "bet-events"
             (runBatcher initialBatcher c7Events).messageQueue,
           BusOp.disconnect] :=
  ⟨(c7_shutdown_drains c7Events (by decide)).1,
   (c7_shutdown_drains c7Events (by decide)).2 (by decide)⟩

/-!  ## Claim theorems: analytics, wire format, history  -/

/-- C8: with `groupBy = hour` and no time bounds the analytics query
groups all rows by hour-truncated timestamp and returns per-bucket
count, sum and average, ordered by bucket ascending; on the spec's
example rows (09:05/10, 09:40/20, 10:10/30) it returns exactly the
buckets 09:00 → (2, 30, 15) and 10:00 → (1, 30, 30). -/
theorem c8_hour_aggregation :
    (∀ rows : List AnalyticsRow,
      List.Sorted (fun a b => a ≤ b)
        ((getBetAnalytics rows none none GroupBy.hour).map (fun a => a.period))
      ∧ ((getBetAnalytics rows none none GroupBy.hour).map
          (fun a => a.period)).Perm
          ((rows.map (fun r => toStartOfHour r.timestamp)).dedup)
      ∧ ∀ a ∈ getBetAnalytics rows none none GroupBy.hour,
          a.bet_count = (rows.filter
            (fun r => decide (toStartOfHour r.timestamp = a.period))).length
          ∧ a.total_amount = ((rows.filter
              (fun r => decide (toStartOfHour r.timestamp = a.period))).map
              (fun r => r.amount)).sum
          ∧ a.avg_amount = a.total_amount / (a.bet_count : ℚ))
    ∧ getBetAnalytics c8Rows none none GroupBy.hour =
        [{ period := 540, bet_count := 2, total_amount := 30, avg_amount := 15 },
         { period := 600, bet_count := 1, total_amount := 30, avg_amount := 30 }] := by
  constructor
  · intro rows
    have hfil : rows.filter (fun r => inRange none none r.timestamp) = rows :=
      List.filter_eq_self.mpr (fun a _ => rfl)
    unfold getBetAnalytics
    rw [hfil]
    refine ⟨?_, ?_, ?_⟩
    · simp only [List.map_map]
      have : ((fun a => AggRow.period a) ∘ fun p =>
          ({ period := p,
             bet_count := (rows.filter (fun r =>
               decide (bucketStart GroupBy.hour r.timestamp = p))).length,
             total_amount := ((rows.filter (fun r =>
               decide (bucketStart GroupBy.hour r.timestamp = p))).map
               (fun r => r.amount)).sum,
             avg_amount := ((rows.filter (fun r =>
               decide (bucketStart GroupBy.hour r.timestamp = p))).map
               (fun r => r.amount)).sum /
               (((rows.filter (fun r =>
                 decide (bucketStart GroupBy.hour r.timestamp = p))).length : ℚ)) }
            : AggRow)) = id := by
        funext p
        rfl
      rw [this, List.map_id]
      exact List.sorted_insertionSort _ _
    · simp only [List.map_map]
      have : ((fun a => AggRow.period a) ∘ fun p =>
          ({ period := p,
             bet_count := (rows.filter (fun r =>
               decide (bucketStart GroupBy.hour r.timestamp = p))).length,
             total_amount := ((rows.filter (fun r =>
               decide (bucketStart GroupBy.hour r.timestamp = p))).map
               (fun r => r.amount)).sum,
             avg_amount := ((rows.filter (fun r =>
               decide (bucketStart GroupBy.hour r.timestamp = p))).map
               (fun r => r.amount)).sum /
               (((rows.filter (fun r =>
                 decide (bucketStart GroupBy.hour r.timestamp = p))).length : ℚ)) }
            : AggRow)) = id := by
        funext p
        rfl
      rw [this, List.map_id]
      exact List.perm_insertionSort _ _
    · intro a ha
      obtain ⟨p, _, rfl⟩ := List.mem_map.mp ha
      exact ⟨rfl, rfl, rfl⟩
  · norm_num [getBetAnalytics, c8Rows, inRange, bucketStart, toStartOfHour,
      List.insertionSort, List.orderedInsert, List.dedup, List.pwFilter,
      List.filter, List.sum]

/-- Witness for C8 at the 09:00 bucket of the example rows: its count,
sum and average are the count, sum and average of exactly the rows
whose hour-truncated timestamp is 09:00. -/
theorem c8_hour_aggregation_witness :
    (AggRow.mk 540 2 30 15).bet_count =
      (c8Rows.filter (fun r =>
        decide (toStartOfHour r.timestamp = (AggRow.mk 540 2 30 15).period))).length
    ∧ (AggRow.mk 540 2 30 15).total_amount =
      ((c8Rows.filter (fun r =>
        decide (toStartOfHour r.timestamp = (AggRow.mk 540 2 30 15).period))).map
        (fun r => r.amount)).sum
    ∧ (AggRow.mk 540 2 30 15).avg_amount =
      (AggRow.mk 540 2 30 15).total_amount /
        ((AggRow.mk 540 2 30 15).bet_count : ℚ) :=
  (c8_hour_aggregation.1 c8Rows).2.2 (AggRow.mk 540 2 30 15)
    (by rw [c8_hour_aggregation.2]; exact List.mem_cons_self _ _)

/-- C9: decoding the encoded wire form of any `BetEventMessage` yields
a structurally equal message, field for field. -/
theorem c9_wire_roundtrip (m : BetEventMessage) :
    decodeBetEvent (encodeBetEvent m) = some m := by
  obtain ⟨bid, uid, amt, gid, bt, bv, od, pw, tx, nb, ts⟩ := m
  cases bv <;>
    simp [encodeBetEvent, decodeBetEvent, jlookup, asStr, asNum, List.find?]

/-- C10: the `pagination.total` of a bet-history response equals the
number of rows in the returned page (at most the requested limit), not
the account's total number of wager rows: on three stored bets with
limit 2, `total` is 2 while the account has 3 rows. -/
theorem c10_pagination_total_is_page_size :
    (∀ (bets : List StoredBet) (games : List GameRow) (uid : String)
      (limit offset : ℕ),
      (getBetHistory bets games uid limit offset).pagination.total =
        (getBetHistory bets games uid limit offset).bets.length
      ∧ (getBetHistory bets games uid limit offset).pagination.total ≤ limit)
    ∧ (getBetHistory c10Bets c10Games "u" 2 0).pagination.total = 2
    ∧ (c10Bets.filter (fun b => decide (b.user_id = "u"))).length = 3 := by
  refine ⟨fun bets games uid limit offset => ⟨rfl, ?_⟩, by decide, by decide⟩
  exact List.length_take_le _ _

end Showcase
